import Mathlib

/-!
Shallow embedding of the EMO2 backbone (src/mmdet/models/backbones/emov2.py):
the window arithmetic of the three attention variants (EW_MHSA_Remote,
EW_MHSA_Close, EW_MHSA_Hybrid), the iiRMB block construction, the EMO2
stage/shape pipeline, checkpoint loading (`EMO2._init_weights`) and the
stage-freezing lifecycle (`EMO2._freeze_stages` / `EMO2.train`).

Tensors are modelled as total functions from indices to rationals; the batch
axis is dropped (every operation acts independently per batch element) and the
einops flattening `(b n1 n2)` is kept as an explicit pair of window indices
`(n1, n2)`.  Floating-point scalars are modelled as rationals; the softmax and
the activation of the value projection are abstract functions carried in the
parameter record (the claims under study never depend on their concrete
values).  Dropout layers appear in the source only in their inactive
(evaluation / p = 0) form for the claims below, where they are the identity,
so they are omitted from the data path.
-/

/-- A feature tensor with the batch axis dropped: `(channel, row, col) → value`.
Out-of-range indices are simply unused by the theorems. -/
abbrev Tensor3 : Type := Nat → Nat → Nat → ℚ

/-- A windowed tensor after einops `-> (b n1 n2) c h1 w1`:
`(windowRow n1, windowCol n2, channel, intraRow h1, intraCol w1) → value`. -/
abbrev WTensor : Type := Nat → Nat → Nat → Nat → Nat → ℚ

/-- `window_size_W, window_size_H = (W, H) if self.window_size <= 0 else
(self.window_size, self.window_size)` — the effective window size along one
axis (emov2.py lines 58-61, identical in all three variants). -/
def effWindow (ws : Int) (n : Nat) : Nat :=
  if ws ≤ 0 then n else ws.toNat

/-- `pad_r = (window_size_W - W % window_size_W) % window_size_W` (and the same
formula for `pad_b`), emov2.py lines 63-64. -/
def padAmount (w n : Nat) : Nat :=
  (w - n % w) % w

/-- `F.pad(x, (pad_l, pad_r, pad_t, pad_b, 0, 0))` with `pad_l = pad_t = 0`:
zero padding on the bottom/right only.  In the functional model the tensor is
zero outside the original `H × W` box. -/
def padT (H W : Nat) (x : Tensor3) : Tensor3 :=
  fun c h w => if h < H ∧ w < W then x c h w else 0

/-- Remote (strided) tiling, einops
`'b c (h1 n1) (w1 n2) -> (b n1 n2) c h1 w1'`: the window index is the inner
factor of each spatial axis, so a window gathers spatially distant pixels. -/
def remoteTileT (n1 n2 : Nat) (x : Tensor3) : WTensor :=
  fun wi1 wi2 c i j => x c (i * n1 + wi1) (j * n2 + wi2)

/-- Remote un-tiling, einops
`'(b n1 n2) c h1 w1 -> b c (h1 n1) (w1 n2)'`: inverse index split of
`remoteTileT`. -/
def remoteUntileT (n1 n2 : Nat) (y : WTensor) : Tensor3 :=
  fun c h w => y (h % n1) (w % n2) c (h / n1) (w / n2)

/-- Close (contiguous) tiling, einops
`'b c (n1 h1) (n2 w1) -> (b n1 n2) c h1 w1'`: the window index is the outer
factor, so a window gathers adjacent pixels.  `h1`/`w1` are the window
dimensions. -/
def closeTileT (h1 w1 : Nat) (x : Tensor3) : WTensor :=
  fun wi1 wi2 c i j => x c (wi1 * h1 + i) (wi2 * w1 + j)

/-- Close un-tiling, einops
`'(b n1 n2) c h1 w1 -> b c (n1 h1) (n2 w1)'`: inverse index split of
`closeTileT`. -/
def closeUntileT (h1 w1 : Nat) (y : WTensor) : Tensor3 :=
  fun c h w => y (h / h1) (w / w1) c (h % h1) (w % w1)

/-- The spatial index map realised by tiling with the close pattern and
merging with the remote pattern (one axis): position `h` of the merged tensor
reads position `(h % n1) * h1 + h / n1` of the original. -/
def closeThenRemoteIdx (n1 h1 h : Nat) : Nat :=
  (h % n1) * h1 + h / n1

/-- Bounded check that close-tile followed by remote-untile is the identity on
an `(n1*h1) × (n2*w1)` spatial box. -/
def closeThenRemoteIsId (n1 h1 n2 w1 : Nat) : Bool :=
  (List.range (n1 * h1)).all (fun h => closeThenRemoteIdx n1 h1 h == h) &&
  (List.range (n2 * w1)).all (fun w => closeThenRemoteIdx n2 w1 w == w)

theorem closeThenRemote_eval (n1 h1 n2 w1 : Nat) (x : Tensor3) (c h w : Nat) :
    remoteUntileT n1 n2 (closeTileT h1 w1 x) c h w
      = x c (closeThenRemoteIdx n1 h1 h) (closeThenRemoteIdx n2 w1 w) := rfl

theorem closeThenRemoteIsId_sound (n1 h1 n2 w1 : Nat)
    (hid : closeThenRemoteIsId n1 h1 n2 w1 = true)
    (x : Tensor3) (c h w : Nat) (hh : h < n1 * h1) (hw : w < n2 * w1) :
    remoteUntileT n1 n2 (closeTileT h1 w1 x) c h w = x c h w := by
  rw [closeThenRemote_eval]
  unfold closeThenRemoteIsId at hid
  rw [Bool.and_eq_true, List.all_eq_true, List.all_eq_true] at hid
  have h1' := hid.1 h (List.mem_range.mpr hh)
  have h2' := hid.2 w (List.mem_range.mpr hw)
  rw [beq_iff_eq] at h1' h2'
  rw [h1', h2']

/-- `self.has_skip = (dim_in == dim_out and stride == 1) and has_skip`
(iiRMB.__init__, emov2.py line 251). -/
def iiRMB_has_skip (dim_in dim_out stride : Nat) (has_skip : Bool) : Bool :=
  (decide (dim_in = dim_out) && decide (stride = 1)) && has_skip

/-- C5: the iiRMB effective skip predicate is exactly
`(dim_in == dim_out) and (stride == 1) and flag`; in particular, when
`dim_in ≠ dim_out` or `stride ≠ 1` the skip is off regardless of the flag. -/
theorem iiRMB_skip_eligibility (dim_in dim_out stride : Nat) (flag : Bool) :
    (iiRMB_has_skip dim_in dim_out stride flag = true ↔
      (dim_in = dim_out ∧ stride = 1 ∧ flag = true)) ∧
    ((dim_in ≠ dim_out ∨ stride ≠ 1) →
      iiRMB_has_skip dim_in dim_out stride flag = false) := by
  constructor
  · simp [iiRMB_has_skip, and_assoc]
  · rintro (h | h) <;> simp [iiRMB_has_skip, h]

/-- Witness for C5: a block with `dim_in = 4 ≠ 5 = dim_out` has the skip
forced off even when the flag is set. -/
theorem iiRMB_skip_eligibility_witness : iiRMB_has_skip 4 5 1 true = false :=
  (iiRMB_skip_eligibility 4 5 1 true).2 (Or.inl (by decide))

/-- A concrete feature tensor used by witnesses: every valid position holds a
distinct value. -/
def tensorA : Tensor3 := fun c h w => (c : ℚ) + 10 * h + 100 * w

/-- C3: both windowing schemes round-trip exactly — the remote (strided)
partition followed by its inverse, and the close (contiguous) partition
followed by its inverse, restore the original tensor at every position of an
`(h1*n1) × (w1*n2)` spatial box (spatial dims exact multiples of the window
dims, so the padding of the forwards is zero). -/
theorem tile_untile_roundtrip (n1 n2 h1 w1 : Nat) (x : Tensor3) (c h w : Nat)
    (hh : h < h1 * n1) (hw : w < w1 * n2) :
    remoteUntileT n1 n2 (remoteTileT n1 n2 x) c h w = x c h w ∧
    closeUntileT h1 w1 (closeTileT h1 w1 x) c h w = x c h w := by
  have eh : h / n1 * n1 + h % n1 = h := by
    rw [Nat.mul_comm]; exact Nat.div_add_mod h n1
  have ew : w / n2 * n2 + w % n2 = w := by
    rw [Nat.mul_comm]; exact Nat.div_add_mod w n2
  have eh' : h / h1 * h1 + h % h1 = h := by
    rw [Nat.mul_comm]; exact Nat.div_add_mod h h1
  have ew' : w / w1 * w1 + w % w1 = w := by
    rw [Nat.mul_comm]; exact Nat.div_add_mod w w1
  constructor
  · show x c (h / n1 * n1 + h % n1) (w / n2 * n2 + w % n2) = x c h w
    rw [eh, ew]
  · show x c (h / h1 * h1 + h % h1) (w / w1 * w1 + w % w1) = x c h w
    rw [eh', ew']

/-- Witness for C3 at a `2 × 3`-window grid of `4 × 5` windows and an interior
position. -/
theorem tile_untile_roundtrip_witness :
    7 < 4 * 2 ∧ 14 < 5 * 3 ∧
    (remoteUntileT 2 3 (remoteTileT 2 3 tensorA) 1 7 14 = tensorA 1 7 14 ∧
      closeUntileT 4 5 (closeTileT 4 5 tensorA) 1 7 14 = tensorA 1 7 14) :=
  ⟨by decide, by decide,
    tile_untile_roundtrip 2 3 4 5 tensorA 1 7 14 (by decide) (by decide)⟩

/-- The spatial-dimension pipeline of the attention forwards: effective window
sizes, bottom/right padding, window counts `n1, n2`, the un-tiled spatial dims
`(h1*n1, w1*n2)`, and the final conditional crop `x[:, :, :H, :W]`
(emov2.py lines 56-66 and 90-94, identical in all three variants). -/
def forwardSpatialDims (ws : Int) (H W : Nat) : Nat × Nat :=
  let wsH := effWindow ws H
  let wsW := effWindow ws W
  let padB := padAmount wsH H
  let padR := padAmount wsW W
  let n1 := (H + padB) / wsH
  let n2 := (W + padR) / wsW
  if 0 < padR ∨ 0 < padB then (min (wsH * n1) H, min (wsW * n2) W)
  else (wsH * n1, wsW * n2)

theorem padAmount_dvd (k n : Nat) (hk : 0 < k) : k ∣ (n + padAmount k n) := by
  have hr : n % k < k := Nat.mod_lt _ hk
  rcases Nat.eq_zero_or_pos (n % k) with h0 | hpos
  · have : padAmount k n = 0 := by
      unfold padAmount; rw [h0, Nat.sub_zero, Nat.mod_self]
    rw [this, Nat.add_zero]
    exact Nat.dvd_of_mod_eq_zero h0
  · have hpa : padAmount k n = k - n % k := by
      unfold padAmount; apply Nat.mod_eq_of_lt; omega
    rw [hpa]
    refine ⟨n / k + 1, ?_⟩
    have hn := Nat.div_add_mod n k
    have hle : n % k ≤ n := Nat.mod_le n k
    generalize hq : k * (n / k) = t at hn
    rw [Nat.mul_add, Nat.mul_one, hq]
    omega

theorem padAmount_mul_div (k n : Nat) (hk : 0 < k) :
    k * ((n + padAmount k n) / k) = n + padAmount k n :=
  Nat.mul_div_cancel' (padAmount_dvd k n hk)

/-- C4: for every positive window size, the padding added at the bottom and
right is exactly `(w - H % w) % w` and `(w - W % w) % w` (the model pads
nowhere else — `padT` writes zeros only below/right of the original box), and
the forward's conditional crop restores spatial dims exactly `(H, W)`. -/
theorem attn_padding_and_output_dims (ws : Int) (H W : Nat) (hw : 0 < ws) :
    padAmount (effWindow ws H) H = (ws.toNat - H % ws.toNat) % ws.toNat ∧
    padAmount (effWindow ws W) W = (ws.toNat - W % ws.toNat) % ws.toNat ∧
    forwardSpatialDims ws H W = (H, W) := by
  have hnle : ¬ ws ≤ 0 := by omega
  have hk : 0 < ws.toNat := by omega
  have heff : ∀ n, effWindow ws n = ws.toNat := by
    intro n; unfold effWindow; rw [if_neg hnle]
  refine ⟨by rw [heff]; rfl, by rw [heff]; rfl, ?_⟩
  unfold forwardSpatialDims
  rw [heff, heff]
  have hH := padAmount_mul_div ws.toNat H hk
  have hW := padAmount_mul_div ws.toNat W hk
  by_cases hc : 0 < padAmount ws.toNat W ∨ 0 < padAmount ws.toNat H
  · rw [if_pos hc, hH, hW,
      Nat.min_eq_right (Nat.le_add_right H _),
      Nat.min_eq_right (Nat.le_add_right W _)]
  · rw [if_neg hc, hH, hW]
    rw [not_or] at hc
    have h1 : padAmount ws.toNat H = 0 := by omega
    have h2 : padAmount ws.toNat W = 0 := by omega
    rw [h1, h2, Nat.add_zero, Nat.add_zero]

/-- Witness for C4 at window size 7 on a `10 × 16` input. -/
theorem attn_padding_and_output_dims_witness :
    (0 : Int) < 7 ∧
    (padAmount (effWindow 7 10) 10 = ((7:Int).toNat - 10 % (7:Int).toNat) % (7:Int).toNat ∧
      padAmount (effWindow 7 16) 16 = ((7:Int).toNat - 16 % (7:Int).toNat) % (7:Int).toNat ∧
      forwardSpatialDims 7 10 16 = (10, 16)) :=
  ⟨by decide, attn_padding_and_output_dims 7 10 16 (by decide)⟩

/-- C10: with a non-positive configured window size, each attention variant
falls back to a single window equal to the whole input: zero padding, exactly
one window along each axis, and `h*w = H*W` attention positions per window. -/
theorem window_nonpositive_is_global (ws : Int) (H W : Nat)
    (hws : ws ≤ 0) (hH : 0 < H) (hW : 0 < W) :
    padAmount (effWindow ws H) H = 0 ∧
    padAmount (effWindow ws W) W = 0 ∧
    (H + padAmount (effWindow ws H) H) / effWindow ws H = 1 ∧
    (W + padAmount (effWindow ws W) W) / effWindow ws W = 1 ∧
    effWindow ws H * effWindow ws W = H * W := by
  have heffH : effWindow ws H = H := by unfold effWindow; rw [if_pos hws]
  have heffW : effWindow ws W = W := by unfold effWindow; rw [if_pos hws]
  have hpH : padAmount H H = 0 := by
    unfold padAmount; rw [Nat.mod_self, Nat.sub_zero, Nat.mod_self]
  have hpW : padAmount W W = 0 := by
    unfold padAmount; rw [Nat.mod_self, Nat.sub_zero, Nat.mod_self]
  rw [heffH, heffW, hpH, hpW]
  exact ⟨rfl, rfl, by rw [Nat.add_zero]; exact Nat.div_self hH,
    by rw [Nat.add_zero]; exact Nat.div_self hW, rfl⟩

/-- Witness for C10 at window size 0 on a `5 × 6` input. -/
theorem window_nonpositive_is_global_witness :
    ((0 : Int) ≤ 0 ∧ 0 < 5 ∧ 0 < 6) ∧
    (padAmount (effWindow 0 5) 5 = 0 ∧
      padAmount (effWindow 0 6) 6 = 0 ∧
      (5 + padAmount (effWindow 0 5) 5) / effWindow 0 5 = 1 ∧
      (6 + padAmount (effWindow 0 6) 6) / effWindow 0 6 = 1 ∧
      effWindow 0 5 * effWindow 0 6 = 5 * 6) :=
  ⟨⟨by decide, by decide, by decide⟩,
    window_nonpositive_is_global 0 5 6 (by decide) (by decide) (by decide)⟩

/-! ## Checkpoint loading (`EMO2._init_weights`, pretrained branch) -/

/-- A flat state mapping as produced by `torch.load` / `self.state_dict()`:
an ordered association list from parameter name to (shape, value). -/
abbrev StateDict : Type := List (String × (List Nat × ℤ))

/-- `k in self_state_dict.keys()` -/
def hasKey (sd : StateDict) (k : String) : Bool :=
  sd.any (fun e => e.1 == k)

def lookupSD (sd : StateDict) (k : String) : Option (List Nat × ℤ) :=
  (sd.find? (fun e => e.1 == k)).map (fun e => e.2)

/-- `self_state_dict.update({k: v})` for a key already present: replace the
stored tensor (shape and value) at that name. -/
def updateSD (sd : StateDict) (k : String) (v : List Nat × ℤ) : StateDict :=
  sd.map (fun e => if e.1 == k then (e.1, v) else e)

/-- The merge loop of `EMO2._init_weights` (emov2.py lines 370-373):
`for k, v in state_dict.items(): if k in self_state_dict.keys():
self_state_dict.update(\x7bk: v\x7d)` — every source entry whose name occurs in
the destination replaces the destination entry, with no shape check. -/
def mergeLoop (src dst : StateDict) : StateDict :=
  src.foldl (fun acc kv => if hasKey acc kv.1 then updateSD acc kv.1 kv.2 else acc) dst

/-- Modelled from the spec: `nn.Module.load_state_dict(sd, strict=True)` is
external library code (not under src/).  Its contract: the load succeeds only
when the supplied mapping has exactly the module's parameter names and every
entry's shape equals the module parameter's shape; a missing or unexpected
name, or a size mismatch at a matching name, raises an error. -/
def load_state_dict_strict (params : StateDict) (sd : StateDict) :
    Except String StateDict :=
  if params.all (fun p => hasKey sd p.1) && sd.all (fun e => hasKey params e.1) then
    if params.all (fun p =>
        match lookupSD sd p.1 with
        | some (sh, _) => sh == p.2.1
        | none => false) then
      .ok sd
    else .error "size mismatch"
  else .error "missing or unexpected keys"

/-- `EMO2._init_weights`, pretrained branch (emov2.py lines 368-375): load the
checkpoint, merge name-matching entries into the module's own state dict, then
`self.load_state_dict(self_state_dict, strict=True)`. -/
def EMO2_init_weights_pretrained (moduleSD ckpt : StateDict) :
    Except String StateDict :=
  load_state_dict_strict moduleSD (mergeLoop ckpt moduleSD)

/-- C2 (behaviour at the failing input): a checkpoint entry whose name matches
a module parameter but whose shape differs is copied into the state dict by
the merge loop (the destination shape is NOT kept) and the subsequent strict
load fails with a size-mismatch error, while a checkpoint entry whose name
matches nothing is silently ignored and the load completes. -/
theorem init_weights_shape_mismatch_crashes :
    EMO2_init_weights_pretrained
        [("a", ([2], 5)), ("b", ([3], 7))]
        [("a", ([4], 9)), ("c", ([1], 1))]
      = .error "size mismatch" ∧
    lookupSD (mergeLoop [("a", ([4], 9)), ("c", ([1], 1))]
        [("a", ([2], 5)), ("b", ([3], 7))]) "a" = some ([4], 9) ∧
    EMO2_init_weights_pretrained
        [("a", ([2], 5))] [("c", ([9], 1))]
      = .ok [("a", ([2], 5))] := by
  refine ⟨?_, ?_, ?_⟩ <;> rfl

/-! ## iiRMB operator construction (`iiRMB.__init__` / `iiRMB.forward`) -/

/-- The four operator variants an `eop_idx` tag can select. -/
inductive EopKind : Type
  | conv
  | remote
  | close
  | hybrid
deriving DecidableEq

/-- The `if eop_idx == 0 ... elif ... else: eop = None` chain of
`iiRMB.__init__` (emov2.py lines 254-267): tags 0-3 select an operator, any
other tag yields `None`. -/
def build_eop (i : Int) : Option EopKind :=
  if i = 0 then some .conv
  else if i = 1 then some .remote
  else if i = 2 then some .close
  else if i = 3 then some .hybrid
  else none

/-- `if eop: eops.append(eop)` over the tag list: `None` entries are silently
dropped, so the operator list keeps exactly the valid tags. -/
def build_eops (l : List Int) : List EopKind :=
  l.filterMap build_eop

/-- `iiRMB.__init__` never raises on an unknown tag: construction always
completes, with the operator list filtered to the valid tags
(`nn.ModuleList(eops)` accepts an empty list). -/
def iiRMB_init_eops (hybrid_eops : List Int) : Except String (List EopKind) :=
  .ok (build_eops hybrid_eops)

/-- The operator-combination step of `iiRMB.forward` (emov2.py lines 284-287):
`xs = [eop(x) for eop in self.eops]; x = sum(xs) if len(self.eops) > 1 else
xs[0]`.  With an empty operator list, `xs[0]` is an index error, modelled as
`none`.  Each operator's output is abstracted to a value per operator kind. -/
def iiRMB_combine (eops : List EopKind) (outs : EopKind → ℚ) : Option ℚ :=
  if eops.length > 1 then some (eops.map outs).sum
  else (eops.map outs)[0]?

/-- C6 counterexample: constructing a block with the invalid tag 4 does NOT
fail — the tag maps to `None`, is dropped, and construction succeeds with an
empty operator list. -/
theorem iiRMB_invalid_eop_counterexample :
    build_eop 4 = none ∧ iiRMB_init_eops [4] = .ok [] :=
  ⟨rfl, rfl⟩

/-- C6 amended: an invalid operator tag is silently dropped at construction
(construction always succeeds); only when no valid tag remains does the block
fail, and it fails at forward time (`xs[0]` on an empty list), not at
construction. -/
theorem iiRMB_invalid_eop_amended (l : List Int) (outs : EopKind → ℚ)
    (hempty : build_eops l = []) :
    (iiRMB_init_eops l).isOk = true ∧
    iiRMB_combine (build_eops l) outs = none := by
  refine ⟨rfl, ?_⟩
  rw [hempty]
  rfl

/-- Witness for C6 amended at the all-invalid tag list `[4]`. -/
theorem iiRMB_invalid_eop_amended_witness :
    build_eops [4] = [] ∧
    ((iiRMB_init_eops [4]).isOk = true ∧
      iiRMB_combine (build_eops [4]) (fun _ => 0) = none) :=
  ⟨rfl, iiRMB_invalid_eop_amended [4] (fun _ => 0) rfl⟩

/-! ## Stage freezing (`EMO2._freeze_stages` / `EMO2.train`) -/

/-- The mutable training state of the backbone, by stage index (0 = stem,
1-4 = stages): the `training` flag shared by all submodules of the stage, the
`training` flag of its normalization layers, and the `requires_grad` flag of
its parameters. -/
structure EMO2State : Type where
  training : Nat → Bool
  normTraining : Nat → Bool
  grad : Nat → Bool

/-- `EMO2._freeze_stages` (emov2.py lines 438-443):
`for i in range(0, self.frozen_stages + 1): m = getattr(self, f'stage\x7bi\x7d');
m.eval(); for param in m.parameters(): param.requires_grad = False`.
`m.eval()` clears the training flag of the stage and of every normalization
layer inside it. -/
def EMO2_freeze_stages (fs : Int) (s : EMO2State) : EMO2State where
  training := fun i => if (i : Int) ≤ fs then false else s.training i
  normTraining := fun i => if (i : Int) ≤ fs then false else s.normTraining i
  grad := fun i => if (i : Int) ≤ fs then false else s.grad i

/-- `EMO2.train(mode)` (emov2.py lines 445-454): `super().train(mode)` sets
the training flag of every submodule (normalization layers included) to
`mode`, leaving `requires_grad` untouched; then `self._freeze_stages()`
re-applies freezing; then, if `mode and self.norm_eval`, every batch-norm
layer is put back in eval mode. -/
def EMO2_train (fs : Int) (norm_eval mode : Bool) (s : EMO2State) : EMO2State :=
  let s1 : EMO2State :=
    { training := fun _ => mode, normTraining := fun _ => mode, grad := s.grad }
  let s2 := EMO2_freeze_stages fs s1
  if mode && norm_eval then
    { s2 with normTraining := fun _ => false }
  else s2

/-! ## The attention data path (EW_MHSA_Remote / Close / Hybrid forward) -/

/-- A token-layout tensor after einops
`-> b heads (h w) dim_head`: `(windowRow, windowCol, head, token, dim)`. -/
abbrev TTensor : Type := Nat → Nat → Nat → Nat → Nat → ℚ

/-- Learned parameters and numeric functions of one EW_MHSA layer (identical
field set in all three variants): `wQK/bQK` are the weight and bias of the
fused 1×1 `qk` projection (output channels `2*num_head*dim_head`), `wV/bV`
and the activation `act` those of the `v` projection (`ConvNormAct` with
`norm_layer='none'`, `act_layer` as configured), `sm n` is the row softmax
over `n` keys, and `scale` stands for the float `self.dim_head ** -0.5`; the
real-valued softmax and scale are modelled abstractly over ℚ. -/
structure AttnParams : Type where
  num_head : Nat
  dim_head : Nat
  dim_in : Nat
  scale : ℚ
  wQK : Nat → Nat → ℚ
  bQK : Nat → ℚ
  wV : Nat → Nat → ℚ
  bV : Nat → ℚ
  act : ℚ → ℚ
  sm : Nat → (Nat → ℚ) → Nat → ℚ

/-- The `self.qk` 1×1 convolution as a per-pixel channel transform. -/
def qkChan (P : AttnParams) (v : Nat → ℚ) (c : Nat) : ℚ :=
  (∑ c' ∈ Finset.range P.dim_in, P.wQK c c' * v c') + P.bQK c

/-- The `self.v` 1×1 convolution followed by its activation, as a per-pixel
channel transform. -/
def vChan (P : AttnParams) (v : Nat → ℚ) (c : Nat) : ℚ :=
  P.act ((∑ c' ∈ Finset.range P.dim_in, P.wV c c' * v c') + P.bV c)

/-- Apply a per-pixel channel transform (a 1×1 conv) to a spatial tensor. -/
def lift3 (f : (Nat → ℚ) → Nat → ℚ) (x : Tensor3) : Tensor3 :=
  fun c h w => f (fun c' => x c' h w) c

/-- Apply a per-pixel channel transform (a 1×1 conv) to a windowed tensor. -/
def liftW (f : (Nat → ℚ) → Nat → ℚ) (x : WTensor) : WTensor :=
  fun wi1 wi2 c i j => f (fun c' => x wi1 wi2 c' i j) c

/-- einops `'b (qk heads dim_head) h w -> qk b heads (h w) dim_head'`,
restricted to half `qkIdx` (0 = queries, 1 = keys): token `t` of head `head`
reads channel `qkIdx*num_head*dim_head + head*dim_head + d` at window pixel
`(t / w', t % w')`. -/
def qkTok (P : AttnParams) (w' : Nat) (qk : WTensor) (qkIdx : Nat) : TTensor :=
  fun wi1 wi2 head t d =>
    qk wi1 wi2 (qkIdx * (P.num_head * P.dim_head) + head * P.dim_head + d)
      (t / w') (t % w')

/-- einops `'b (heads dim_head) h w -> b heads (h w) dim_head'`. -/
def tokView (P : AttnParams) (w' : Nat) (x : WTensor) : TTensor :=
  fun wi1 wi2 head t d =>
    x wi1 wi2 (head * P.dim_head + d) (t / w') (t % w')

/-- einops `'b heads (h w) dim_head -> b (heads dim_head) h w'`. -/
def spatView (P : AttnParams) (w' : Nat) (z : TTensor) : WTensor :=
  fun wi1 wi2 c i j =>
    z wi1 wi2 (c / P.dim_head) (i * w' + j) (c % P.dim_head)

/-- `attn_map = softmax((q @ k.transpose(-2, -1)) * self.scale, dim=-1)`.
The `attn_drop` around it is inactive (p = 0 / eval), i.e. the identity. -/
def attnMap (P : AttnParams) (tokens w' : Nat) (qk : WTensor) : TTensor :=
  fun wi1 wi2 head tq tk =>
    P.sm tokens (fun tk' =>
      (∑ d ∈ Finset.range P.dim_head,
        qkTok P w' qk 0 wi1 wi2 head tq d * qkTok P w' qk 1 wi1 wi2 head tk' d)
        * P.scale) tk

/-- `x_spa = attn_map @ v`: contraction over the key/token axis. -/
def attnApply (tokens : Nat) (attn : TTensor) (v : TTensor) : TTensor :=
  fun wi1 wi2 head t d =>
    ∑ tk ∈ Finset.range tokens, attn wi1 wi2 head t tk * v wi1 wi2 head tk d

/-- One windowed attention pass on `h' × w'` windows: build the attention map
from the tiled qk output and apply it to the token view of the tiled value
tensor, returning the spatial window layout (the common middle section of all
three forwards). -/
def windowAttn (P : AttnParams) (h' w' : Nat) (qkw vw : WTensor) : WTensor :=
  spatView P w'
    (attnApply (h' * w') (attnMap P (h' * w') w' qkw) (tokView P w' vw))

/-- `if pad_r > 0 or pad_b > 0: x = x[:, :, :H, :W]` — the conditional final
crop shared by the three forwards. -/
def cropPad (padR padB H W : Nat) (x : Tensor3) : Tensor3 :=
  if 0 < padR ∨ 0 < padB then
    (fun c h w => if h < H ∧ w < W then x c h w else 0)
  else x

/-- `EW_MHSA_Remote.forward` (emov2.py lines 55-94), with inactive dropout:
pad, remote-tile, fused qk projection on the tiled tensor, windowed
attention (applied to the pre-projection values and then projected when
`attn_pre`, else to the projected values), remote-untile, conditional crop. -/
def EW_MHSA_Remote_forward (P : AttnParams) (attn_pre : Bool) (ws : Int)
    (H W : Nat) (x : Tensor3) : Tensor3 :=
  let wsH := effWindow ws H
  let wsW := effWindow ws W
  let padB := padAmount wsH H
  let padR := padAmount wsW W
  let xp := padT H W x
  let n1 := (H + padB) / wsH
  let n2 := (W + padR) / wsW
  let xt := remoteTileT n1 n2 xp
  let qk := liftW (qkChan P) xt
  let x_spa :=
    if attn_pre then liftW (vChan P) (windowAttn P wsH wsW qk xt)
    else windowAttn P wsH wsW qk (liftW (vChan P) xt)
  cropPad padR padB H W (remoteUntileT n1 n2 x_spa)

/-- `EW_MHSA_Close.forward` (emov2.py lines 114-156), with inactive dropout:
identical to the remote variant except for the contiguous tiling
`'b c (n1 h1) (n2 w1) -> (b n1 n2) c h1 w1'` and its inverse. -/
def EW_MHSA_Close_forward (P : AttnParams) (attn_pre : Bool) (ws : Int)
    (H W : Nat) (x : Tensor3) : Tensor3 :=
  let wsH := effWindow ws H
  let wsW := effWindow ws W
  let padB := padAmount wsH H
  let padR := padAmount wsW W
  let xp := padT H W x
  let n1 := (H + padB) / wsH
  let n2 := (W + padR) / wsW
  let xt := closeTileT wsH wsW xp
  let qk := liftW (qkChan P) xt
  let x_spa :=
    if attn_pre then liftW (vChan P) (windowAttn P wsH wsW qk xt)
    else windowAttn P wsH wsW qk (liftW (vChan P) xt)
  cropPad padR padB H W (closeUntileT wsH wsW x_spa)

/-- In the `attn_pre=True` branch of `EW_MHSA_Hybrid.forward`, the merge used
for the close-partitioned branch (emov2.py line 220): the rearrangement
`'(b n1 n2) c h1 w1 -> b c (h1 n1) (w1 n2)'`, which is the remote (strided)
un-tiling, not the inverse of the close tiling. -/
def hybridPreCloseMerge (n1 n2 : Nat) (y : WTensor) : Tensor3 :=
  remoteUntileT n1 n2 y

/-- `EW_MHSA_Hybrid.forward` (emov2.py lines 175-240), with inactive dropout:
the qk (and, when `attn_pre=False`, the v) projection is computed once on the
padded input and then partitioned both ways; attention runs independently per
partitioning and the two spatial outputs are summed, with a single final
crop.  In the `attn_pre=True` branch both branches are merged with the remote
un-tiling pattern (lines 211 and 220 both read
`'(b n1 n2) c h1 w1 -> b c (h1 n1) (w1 n2)'`); in the `attn_pre=False`
branch each branch is merged with its own inverse (lines 229 and 237). -/
def EW_MHSA_Hybrid_forward (P : AttnParams) (attn_pre : Bool) (ws : Int)
    (H W : Nat) (x : Tensor3) : Tensor3 :=
  let wsH := effWindow ws H
  let wsW := effWindow ws W
  let padB := padAmount wsH H
  let padR := padAmount wsW W
  let xp := padT H W x
  let n1 := (H + padB) / wsH
  let n2 := (W + padR) / wsW
  let x_remote := remoteTileT n1 n2 xp
  let x_close := closeTileT wsH wsW xp
  let qk := lift3 (qkChan P) xp
  let qk_remote := remoteTileT n1 n2 qk
  let qk_close := closeTileT wsH wsW qk
  let x_spa :=
    if attn_pre then
      let s_r := remoteUntileT n1 n2 (windowAttn P wsH wsW qk_remote x_remote)
      let s_c := hybridPreCloseMerge n1 n2 (windowAttn P wsH wsW qk_close x_close)
      lift3 (vChan P) (fun c h w => s_r c h w + s_c c h w)
    else
      let v := lift3 (vChan P) xp
      let s_r := remoteUntileT n1 n2
        (windowAttn P wsH wsW qk_remote (remoteTileT n1 n2 v))
      let s_c := closeUntileT wsH wsW
        (windowAttn P wsH wsW qk_close (closeTileT wsH wsW v))
      fun c h w => s_r c h w + s_c c h w
  cropPad padR padB H W x_spa

/-- A 1×1 conv applied after tiling equals the same conv applied before
tiling (it is a per-pixel channel transform; remote case). -/
theorem liftW_remoteTileT (f : (Nat → ℚ) → Nat → ℚ) (n1 n2 : Nat)
    (x : Tensor3) : liftW f (remoteTileT n1 n2 x) = remoteTileT n1 n2 (lift3 f x) := rfl

/-- A 1×1 conv applied after tiling equals the same conv applied before
tiling (close case). -/
theorem liftW_closeTileT (f : (Nat → ℚ) → Nat → ℚ) (h1 w1 : Nat)
    (x : Tensor3) : liftW f (closeTileT h1 w1 x) = closeTileT h1 w1 (lift3 f x) := rfl

theorem cropPad_add (padR padB H W : Nat) (f g : Tensor3) (c h w : Nat) :
    cropPad padR padB H W (fun c' h' w' => f c' h' w' + g c' h' w') c h w
      = cropPad padR padB H W f c h w + cropPad padR padB H W g c h w := by
  unfold cropPad
  by_cases hc : 0 < padR ∨ 0 < padB
  · simp only [if_pos hc]
    by_cases hb : h < H ∧ w < W <;> simp [hb]
  · simp only [if_neg hc]

/-- C1: with `attn_pre = False` and dropout inactive, the hybrid variant's
output equals, at every position, the elementwise sum of the standalone
remote and close variants applied to the same input with the same learned
weights (shared qk and v projections). -/
theorem hybrid_post_eq_remote_add_close (P : AttnParams) (ws : Int)
    (H W : Nat) (x : Tensor3) (c h w : Nat) :
    EW_MHSA_Hybrid_forward P false ws H W x c h w
      = EW_MHSA_Remote_forward P false ws H W x c h w
        + EW_MHSA_Close_forward P false ws H W x c h w := by
  simp only [EW_MHSA_Hybrid_forward, EW_MHSA_Remote_forward,
    EW_MHSA_Close_forward, liftW_remoteTileT, liftW_closeTileT,
    Bool.false_eq_true, if_false]
  exact cropPad_add _ _ _ _ _ _ _ _ _

/-- A grid tensor whose value encodes both spatial coordinates, used to
exhibit the broken round trip of C9 on either axis. -/
def gridT : Tensor3 := fun _ h w => 1000 * (h : ℚ) + (w : ℚ)

/-- C9 counterexample: with window size 1 and two windows along each axis
(the window count 2 exceeds 1 and differs from the window size 1), the
close-tile / remote-untile composite IS the identity on the whole `2 × 2`
spatial box, so in this configuration the pair is a round trip after all. -/
theorem hybrid_pre_close_roundtrip_counterexample :
    (1 < 2 ∧ (2 : Nat) ≠ 1) ∧ closeThenRemoteIsId 2 1 2 1 = true := by
  decide

/-- C9 amended: in the `attn_pre=True` branch of `EW_MHSA_Hybrid.forward`
the close branch is merged with the remote un-tiling pattern
(`hybridPreCloseMerge` is the rearrangement at emov2.py line 220, used inside
`EW_MHSA_Hybrid_forward`), and consequently close-tiling followed by that
merge is not a round trip whenever SOME axis has window count above 1 AND
window size above 1 (rows: `n1`/`h1`, columns: `n2`/`w1`; all four are
positive on any non-empty input): the grid tensor comes back changed at an
in-bounds position on the qualifying axis, where the merge agrees with the
remote un-tiling. -/
theorem hybrid_pre_close_merge_not_roundtrip (n1 h1 n2 w1 : Nat)
    (hn1 : 0 < n1) (hh1 : 0 < h1) (hn2 : 0 < n2) (hw1 : 0 < w1)
    (haxis : (1 < n1 ∧ 1 < h1) ∨ (1 < n2 ∧ 1 < w1)) :
    (1 < n1 * h1 ∧ 0 < n2 * w1 ∧
      hybridPreCloseMerge n1 n2 (closeTileT h1 w1 gridT) 0 1 0
          = remoteUntileT n1 n2 (closeTileT h1 w1 gridT) 0 1 0 ∧
      hybridPreCloseMerge n1 n2 (closeTileT h1 w1 gridT) 0 1 0 ≠ gridT 0 1 0) ∨
    (0 < n1 * h1 ∧ 1 < n2 * w1 ∧
      hybridPreCloseMerge n1 n2 (closeTileT h1 w1 gridT) 0 0 1
          = remoteUntileT n1 n2 (closeTileT h1 w1 gridT) 0 0 1 ∧
      hybridPreCloseMerge n1 n2 (closeTileT h1 w1 gridT) 0 0 1 ≠ gridT 0 0 1) := by
  rcases haxis with ⟨ha, hb⟩ | ⟨ha, hb⟩
  · refine Or.inl ⟨?_, Nat.mul_pos hn2 hw1, rfl, ?_⟩
    · calc 1 < 2 * 2 := by omega
        _ ≤ n1 * h1 := Nat.mul_le_mul ha hb
    · show gridT 0 (closeThenRemoteIdx n1 h1 1) (closeThenRemoteIdx n2 w1 0)
          ≠ gridT 0 1 0
      unfold closeThenRemoteIdx gridT
      rw [Nat.mod_eq_of_lt ha, Nat.div_eq_of_lt ha]
      have e1 : 1 * h1 + 0 = h1 := by omega
      have e2 : 0 % n2 * w1 + 0 / n2 = 0 := by simp
      rw [e1, e2]
      intro hc
      push_cast at hc
      have : (h1 : ℚ) = 1 := by linarith
      have : h1 = 1 := by exact_mod_cast this
      omega
  · refine Or.inr ⟨Nat.mul_pos hn1 hh1, ?_, rfl, ?_⟩
    · calc 1 < 2 * 2 := by omega
        _ ≤ n2 * w1 := Nat.mul_le_mul ha hb
    · show gridT 0 (closeThenRemoteIdx n1 h1 0) (closeThenRemoteIdx n2 w1 1)
          ≠ gridT 0 0 1
      unfold closeThenRemoteIdx gridT
      rw [Nat.mod_eq_of_lt ha, Nat.div_eq_of_lt ha]
      have e1 : 0 % n1 * h1 + 0 / n1 = 0 := by simp
      have e2 : 1 * w1 + 0 = w1 := by omega
      rw [e1, e2]
      intro hc
      push_cast at hc
      have : (w1 : ℚ) = 1 := by linarith
      have : w1 = 1 := by exact_mod_cast this
      omega

/-- Witness for C9 amended: a single window row (`n1 = 1`) of size 7, but two
window columns of size 7 — a `7 × 14` input with window size 7, where only
the column axis qualifies. -/
theorem hybrid_pre_close_merge_not_roundtrip_witness :
    ((0 < 1 ∧ 0 < 7 ∧ 0 < 2 ∧ 0 < 7) ∧ ((1 < 1 ∧ 1 < 7) ∨ (1 < 2 ∧ 1 < 7))) ∧
    ((1 < 1 * 7 ∧ 0 < 2 * 7 ∧
        hybridPreCloseMerge 1 2 (closeTileT 7 7 gridT) 0 1 0
            = remoteUntileT 1 2 (closeTileT 7 7 gridT) 0 1 0 ∧
        hybridPreCloseMerge 1 2 (closeTileT 7 7 gridT) 0 1 0 ≠ gridT 0 1 0) ∨
      (0 < 1 * 7 ∧ 1 < 2 * 7 ∧
        hybridPreCloseMerge 1 2 (closeTileT 7 7 gridT) 0 0 1
            = remoteUntileT 1 2 (closeTileT 7 7 gridT) 0 0 1 ∧
        hybridPreCloseMerge 1 2 (closeTileT 7 7 gridT) 0 0 1 ≠ gridT 0 0 1)) :=
  ⟨⟨⟨by decide, by decide, by decide, by decide⟩, Or.inr ⟨by decide, by decide⟩⟩,
    hybrid_pre_close_merge_not_roundtrip 1 7 2 7 (by decide) (by decide)
      (by decide) (by decide) (Or.inr ⟨by decide, by decide⟩)⟩

/-! ## Shape pipeline of the model (`get_stem`, `iiRMB`, `EMO2.forward`) -/

/-- Modelled from the spec: `ConvNormAct` lives in `emov2_basic_modules`,
which is not under src/.  Per spec §4.1/§6 it is a `k × k` convolution whose
norm and activation preserve shape, producing `dim_out` channels and dividing
the spatial dims by its stride; the symmetric same-padding `k / 2` gives the
output length below. -/
def convOutDim (k s n : Nat) : Nat :=
  (n + 2 * (k / 2) - k) / s + 1

/-- Shape of `ConvNormAct(dim_in, dim_out, kernel_size=k, stride=s, ...)` on
a `(channels, H, W)` shape. -/
def ConvNormAct_shape (dim_out k s : Nat) (sh : Nat × Nat × Nat) :
    Nat × Nat × Nat :=
  (dim_out, convOutDim k s sh.2.1, convOutDim k s sh.2.2)

/-- `get_stem` (emov2.py lines 19-25): a stride-2 3×3 conv, a stride-1
depthwise 3×3 conv, and a stride-1 1×1 pointwise conv, all with `dim_mid`
output channels. -/
def get_stem_shape (dim_mid : Nat) (sh : Nat × Nat × Nat) : Nat × Nat × Nat :=
  ConvNormAct_shape dim_mid 1 1
    (ConvNormAct_shape dim_mid 3 1 (ConvNormAct_shape dim_mid 3 2 sh))

/-- Spatial action of one elementwise operator of `iiRMB`: the plain `Conv`
is a stride-1 `conv_ks` convolution; the attention variants pad, window,
attend and crop, yielding the dims of `forwardSpatialDims`. -/
def eop_spatial (ws : Int) (conv_ks : Nat) (e : EopKind) (hw : Nat × Nat) :
    Nat × Nat :=
  match e with
  | .conv => (convOutDim conv_ks 1 hw.1, convOutDim conv_ks 1 hw.2)
  | _ => forwardSpatialDims ws hw.1 hw.2

/-- The static configuration of one `iiRMB` block fixed by `EMO2.__init__`. -/
structure BlockCfg : Type where
  dim_out : Nat
  dw_ks : Nat
  stride : Nat
  conv_ks : Nat
  window_size : Int
  eops : List EopKind

/-- Shape of `iiRMB.forward` (emov2.py lines 282-298): the (summed) operator
outputs keep the spatial dims of the first operator, then `conv_local`
(kernel `dw_ks`, stride `stride`, `nn.Identity` when `dw_ks ≤ 0`)
downsamples, then the 1×1 `proj` sets `dim_out` channels; norm, layer scale,
dropout and the skip additions do not change the shape. -/
def iiRMB_shape (b : BlockCfg) (sh : Nat × Nat × Nat) : Nat × Nat × Nat :=
  let hw :=
    match b.eops with
    | [] => (sh.2.1, sh.2.2)
    | e :: _ => eop_spatial b.window_size b.conv_ks e (sh.2.1, sh.2.2)
  let hw2 :=
    if 0 < b.dw_ks then
      (convOutDim b.dw_ks b.stride hw.1, convOutDim b.dw_ks b.stride hw.2)
    else hw
  (b.dim_out, hw2.1, hw2.2)

/-- The configuration lists of `EMO2.__init__` that determine shapes. -/
structure EMO2Cfg : Type where
  depths : List Nat
  embed_dims : List Nat
  dw_kss : List Nat
  window_sizes : List Int
  hybrid_eopss : List (List Int)
  conv_kss : List Nat
  out_indices : List Nat

/-- The per-block configuration chosen by the `EMO2.__init__` double loop
(emov2.py lines 336-352): the first block (`j == 0`) of each stage uses
stride 2, the conv-only operator list `[0]`, `conv_ks = 1`, and
`dw_ks = dw_kss[i] if dw_kss[i] > 0 else 5`; later blocks use stride 1 and
the stage's configured operator mix, kernel and window settings. -/
def stage_blocks (cfg : EMO2Cfg) (i : Nat) : List BlockCfg :=
  (List.range (cfg.depths.getD i 0)).map (fun j =>
    if j = 0 then
      { dim_out := cfg.embed_dims.getD i 0
        dw_ks := if 0 < cfg.dw_kss.getD i 0 then cfg.dw_kss.getD i 0 else 5
        stride := 2
        conv_ks := 1
        window_size := cfg.window_sizes.getD i 7
        eops := build_eops [0] }
    else
      { dim_out := cfg.embed_dims.getD i 0
        dw_ks := cfg.dw_kss.getD i 0
        stride := 1
        conv_ks := cfg.conv_kss.getD i 0
        window_size := cfg.window_sizes.getD i 7
        eops := build_eops (cfg.hybrid_eopss.getD i []) })

/-- `EMO2.forward` (emov2.py lines 418-436) at the shape level: the input
threads through the stem (`stage0`, emitting `embed_dims[0] // 2` channels)
and the four stages, the five segment outputs are collected in order, and the
`out_indices` selection is returned in the requested order. -/
def EMO2_forward_shapes (cfg : EMO2Cfg) (input : Nat × Nat × Nat) :
    List (Nat × Nat × Nat) :=
  let sh0 := get_stem_shape (cfg.embed_dims.getD 0 0 / 2) input
  let sh1 := (stage_blocks cfg 0).foldl (fun s b => iiRMB_shape b s) sh0
  let sh2 := (stage_blocks cfg 1).foldl (fun s b => iiRMB_shape b s) sh1
  let sh3 := (stage_blocks cfg 2).foldl (fun s b => iiRMB_shape b s) sh2
  let sh4 := (stage_blocks cfg 3).foldl (fun s b => iiRMB_shape b s) sh3
  cfg.out_indices.filterMap (fun i => [sh0, sh1, sh2, sh3, sh4][i]?)

/-- The default configuration of the claim: depths `[1, 2, 4, 2]`, embedding
dims `[64, 128, 256, 512]`, `dw_kss = [3, 3, 5, 5]`, window size 7,
`hybrid_eopss = [[0], [0], [1], [1]]`, `conv_kss = [1, 1, 1, 1]`, and
`out_indices = (0, 1, 2, 3, 4)`. -/
def defaultEMO2Cfg : EMO2Cfg where
  depths := [1, 2, 4, 2]
  embed_dims := [64, 128, 256, 512]
  dw_kss := [3, 3, 5, 5]
  window_sizes := [7, 7, 7, 7]
  hybrid_eopss := [[0], [0], [1], [1]]
  conv_kss := [1, 1, 1, 1]
  out_indices := [0, 1, 2, 3, 4]

/-- C7: on a `(3, 224, 224)` input with the default configuration and
`out_indices (0, 1, 2, 3, 4)`, the forward returns five feature shapes with
channel counts 32, 64, 128, 256, 512 (the stem emits `64 // 2 = 32`
channels) and spatial dims 112, 56, 28, 14, 7, in requested-index order. -/
theorem EMO2_default_output_shapes :
    EMO2_forward_shapes defaultEMO2Cfg (3, 224, 224)
      = [(32, 112, 112), (64, 56, 56), (128, 28, 28),
          (256, 14, 14), (512, 7, 7)] := by
  decide

/-- C8: after `_freeze_stages` with `frozen_stages = fs`, every stage
`i ≤ fs` has its parameters' gradient tracking disabled and its normalization
layers in eval mode, and the same holds again after ANY subsequent
`train(mode)` call from ANY intermediate state: the toggle re-applies
freezing, so frozen stages never return to training-mode normalization or
trainable parameters. -/
theorem EMO2_freeze_stages_invariant (fs : Int) (norm_eval mode : Bool)
    (s : EMO2State) (i : Nat) (hi : (i : Int) ≤ fs) :
    ((EMO2_freeze_stages fs s).grad i = false ∧
      (EMO2_freeze_stages fs s).training i = false ∧
      (EMO2_freeze_stages fs s).normTraining i = false) ∧
    ((EMO2_train fs norm_eval mode s).grad i = false ∧
      (EMO2_train fs norm_eval mode s).training i = false ∧
      (EMO2_train fs norm_eval mode s).normTraining i = false) := by
  cases mode <;> cases norm_eval <;>
    simp [EMO2_freeze_stages, EMO2_train, hi]

/-- A fully-trainable state used by the C8 witness. -/
def stateAllOn : EMO2State :=
  { training := fun _ => true, normTraining := fun _ => true, grad := fun _ => true }

/-- Witness for C8: frozen stages 0..2, stage 1, a train(true) toggle with
`norm_eval = false`. -/
theorem EMO2_freeze_stages_invariant_witness :
    ((1 : Nat) : Int) ≤ 2 ∧
    (((EMO2_freeze_stages 2 stateAllOn).grad 1 = false ∧
        (EMO2_freeze_stages 2 stateAllOn).training 1 = false ∧
        (EMO2_freeze_stages 2 stateAllOn).normTraining 1 = false) ∧
      ((EMO2_train 2 false true stateAllOn).grad 1 = false ∧
        (EMO2_train 2 false true stateAllOn).training 1 = false ∧
        (EMO2_train 2 false true stateAllOn).normTraining 1 = false)) :=
  ⟨by decide, EMO2_freeze_stages_invariant 2 false true stateAllOn 1 (by decide)⟩
